import Mathlib

/-!
Verification of the grocery-marketplace server and client logic.

The development shallowly embeds the in-memory storage layer
(`server/storage.ts`, class `MemStorage`), the REST route handlers
(`server/routes.ts` and the extended version with the store-delete and
order-cancel endpoints), the client cart state machine
(`client/src/context/CartContext.tsx`), the client cancellation guard
(`client/src/pages/OrdersPage.tsx`), and the password utilities
(`server/utils/passwordUtils.ts`).

Modelling conventions:
* JavaScript `Map<number, T>` becomes an association list `JsMap T`
  (a `List (Nat × T)`); `Map.set` replaces the first entry with the key
  or appends, `Map.delete` removes entries with the key, mirroring the
  JS semantics on the duplicate-free maps the program builds.
* Wall-clock instants are `Int` milliseconds (JS `Date.getTime()`).
* `doublePrecision` money columns are modelled as `Int`; no claim
  involves fractional arithmetic on them.
* `Math.random() * 15 * 60000` in `createOrder` is modelled as an
  arbitrary `rand : Nat` with `rand < 900000` (milliseconds drawn from
  `[0, 15 minutes)`).
* `parseInt(req.params.id)` results are modelled as `Option Nat`
  (`none` = `NaN`).
-/

/-- Association-list model of a JavaScript `Map<number, α>`. -/
abbrev JsMap (α : Type) : Type := List (Nat × α)

/-- The empty map (`new Map()`). -/
def JsMap.empty {α : Type} : JsMap α := []

/-- `map.get(k)` — the value at the first entry with key `k`. -/
def JsMap.get? {α : Type} : JsMap α → Nat → Option α
  | [], _ => none
  | e :: rest, k => if e.1 = k then some e.2 else JsMap.get? rest k

/-- `map.set(k, v)` — replace the entry in place, or append a new one. -/
def JsMap.set {α : Type} : JsMap α → Nat → α → JsMap α
  | [], k, v => [(k, v)]
  | e :: rest, k, v => if e.1 = k then (k, v) :: rest else e :: JsMap.set rest k v

/-- `map.delete(k)` — remove the entries with key `k`. -/
def JsMap.delete {α : Type} : JsMap α → Nat → JsMap α
  | [], _ => []
  | e :: rest, k => if e.1 = k then JsMap.delete rest k else e :: JsMap.delete rest k

/-- `map.has(k)`. -/
def JsMap.has {α : Type} : JsMap α → Nat → Bool
  | [], _ => false
  | e :: rest, k => if e.1 = k then true else JsMap.has rest k

/-- `Array.from(map.values())`. -/
def JsMap.values {α : Type} (m : JsMap α) : List α := m.map Prod.snd

/-- The keys of the map, in insertion order. -/
def JsMap.keys {α : Type} (m : JsMap α) : List Nat := m.map Prod.fst

theorem JsMap.get?_empty {α : Type} (k : Nat) : (JsMap.empty : JsMap α).get? k = none := rfl

theorem JsMap.get?_set_self {α : Type} (m : JsMap α) (k : Nat) (v : α) :
    (m.set k v).get? k = some v := by
  induction m with
  | nil => simp [JsMap.set, JsMap.get?]
  | cons e rest ih =>
    by_cases h : e.1 = k
    · simp [JsMap.set, JsMap.get?, h]
    · simp [JsMap.set, JsMap.get?, h, ih]

theorem JsMap.get?_set_ne {α : Type} (m : JsMap α) (k k' : Nat) (v : α) (h : k ≠ k') :
    (m.set k v).get? k' = m.get? k' := by
  induction m with
  | nil => simp [JsMap.set, JsMap.get?, h]
  | cons e rest ih =>
    by_cases he : e.1 = k
    · subst he
      simp [JsMap.set, JsMap.get?, h, Ne.symm h]
    · by_cases he' : e.1 = k'
      · subst he'
        simp [JsMap.set, JsMap.get?, he, Ne.symm h]
      · simp [JsMap.set, JsMap.get?, he, he', ih]

theorem JsMap.get?_delete_self {α : Type} (m : JsMap α) (k : Nat) :
    (m.delete k).get? k = none := by
  induction m with
  | nil => simp [JsMap.delete, JsMap.get?]
  | cons e rest ih =>
    by_cases h : e.1 = k
    · simp [JsMap.delete, h, ih]
    · simp [JsMap.delete, JsMap.get?, h, ih]

theorem JsMap.get?_delete_ne {α : Type} (m : JsMap α) (k k' : Nat) (h : k ≠ k') :
    (m.delete k).get? k' = m.get? k' := by
  induction m with
  | nil => simp [JsMap.delete]
  | cons e rest ih =>
    by_cases he : e.1 = k
    · subst he
      have hne : e.1 ≠ k' := h
      simp [JsMap.delete, JsMap.get?, hne, ih]
    · simp [JsMap.delete, JsMap.get?, he, ih]

theorem JsMap.has_iff_get?_isSome {α : Type} (m : JsMap α) (k : Nat) :
    m.has k = (m.get? k).isSome := by
  induction m with
  | nil => simp [JsMap.has, JsMap.get?]
  | cons e rest ih =>
    by_cases h : e.1 = k
    · simp [JsMap.has, JsMap.get?, h]
    · simp [JsMap.has, JsMap.get?, h, ih]

theorem JsMap.has_set {α : Type} (m : JsMap α) (k k' : Nat) (v : α) (h : m.has k' = true) :
    (m.set k v).has k' = true := by
  induction m with
  | nil => simp [JsMap.has] at h
  | cons e rest ih =>
    by_cases he : e.1 = k
    · subst he
      by_cases hk : e.1 = k'
      · simp [JsMap.set, JsMap.has, hk]
      · simp [JsMap.has, hk] at h
        simp [JsMap.set, JsMap.has, hk, h]
    · by_cases hk : e.1 = k'
      · subst hk
        have hne : ¬ e.1 = k := he
        simp [JsMap.set, JsMap.has, hne, Ne.symm hne]
      · simp [JsMap.has, hk] at h
        simp [JsMap.set, JsMap.has, he, hk, ih h]

theorem JsMap.mem_set {α : Type} (m : JsMap α) (k : Nat) (v : α) (e : Nat × α)
    (h : e ∈ m.set k v) : e = (k, v) ∨ e ∈ m := by
  induction m with
  | nil =>
    simp [JsMap.set] at h
    exact Or.inl h
  | cons e' rest ih =>
    by_cases he : e'.1 = k
    · simp [JsMap.set, he] at h
      rcases h with h | h
      · exact Or.inl h
      · exact Or.inr (List.mem_cons_of_mem _ h)
    · simp only [JsMap.set, he, if_false, List.mem_cons] at h
      rcases h with h | h
      · exact Or.inr (by simp [h])
      · rcases ih h with h' | h'
        · exact Or.inl h'
        · exact Or.inr (List.mem_cons_of_mem _ h')

theorem JsMap.mem_delete {α : Type} (m : JsMap α) (k : Nat) (e : Nat × α)
    (h : e ∈ m.delete k) : e ∈ m := by
  induction m with
  | nil => simp [JsMap.delete] at h
  | cons e' rest ih =>
    by_cases he : e'.1 = k
    · simp only [JsMap.delete, he, if_true] at h
      exact List.mem_cons_of_mem _ (ih h)
    · simp only [JsMap.delete, he, if_false, List.mem_cons] at h
      rcases h with h | h
      · simp [h]
      · exact List.mem_cons_of_mem _ (ih h)

theorem JsMap.mem_values_set {α : Type} (m : JsMap α) (k : Nat) (v w : α)
    (h : w ∈ (m.set k v).values) : w = v ∨ w ∈ m.values := by
  simp only [JsMap.values, List.mem_map] at h
  rcases h with ⟨e, he, rfl⟩
  rcases JsMap.mem_set m k v e he with h' | h'
  · exact Or.inl (by rw [h'])
  · exact Or.inr (by simp [JsMap.values]; exact ⟨e.1, by simpa using h'⟩)

theorem JsMap.mem_values_delete {α : Type} (m : JsMap α) (k : Nat) (w : α)
    (h : w ∈ (m.delete k).values) : w ∈ m.values := by
  simp only [JsMap.values, List.mem_map] at h
  rcases h with ⟨e, he, rfl⟩
  exact by simp [JsMap.values]; exact ⟨e.1, by simpa using JsMap.mem_delete m k e he⟩

/-!
## Data model (`shared/schema.ts`)

Entity records follow the drizzle table declarations. Nullable columns
are `Option`; `doublePrecision` money columns are `Int`; timestamps are
`Int` milliseconds.
-/

/-- `users` table row. -/
structure User where
  id : Nat
  username : String
  password : String
  name : String
  email : String
  address : Option String
  phone : Option String
  isVendor : Bool
deriving DecidableEq

/-- `InsertUser` payload (id and isVendor omitted / optional). -/
structure InsertUser where
  username : String
  password : String
  name : String
  email : String
  address : Option String := none
  phone : Option String := none
  isVendor : Option Bool := none
deriving DecidableEq

/-- `stores` table row. -/
structure Store where
  id : Nat
  vendorId : Nat
  name : String
  description : Option String
  imageUrl : Option String
  address : String
  location : String
  rating : Int
  reviewCount : Int
  deliveryTime : String
  deliveryFee : Int
  minOrder : Int
  openingHours : Option String
deriving DecidableEq

/-- `InsertStore` payload (id, rating, reviewCount omitted). -/
structure InsertStore where
  vendorId : Nat
  name : String
  description : Option String := none
  imageUrl : Option String := none
  address : String
  location : String
  deliveryTime : String
  deliveryFee : Int
  minOrder : Option Int := none
  openingHours : Option String := none
deriving DecidableEq

/-- `categories` table row. -/
structure Category where
  id : Nat
  name : String
  icon : String
  colorClass : String
deriving DecidableEq

/-- `InsertCategory` payload. -/
structure InsertCategory where
  name : String
  icon : String
  colorClass : String
deriving DecidableEq

/-- `products` table row. -/
structure Product where
  id : Nat
  storeId : Nat
  categoryId : Option Nat
  name : String
  description : Option String
  price : Int
  unit : String
  imageUrl : Option String
  stock : Int
  sku : Option String
  isActive : Bool
deriving DecidableEq

/-- `InsertProduct` payload (id omitted; defaulted columns optional). -/
structure InsertProduct where
  storeId : Nat
  categoryId : Option Nat := none
  name : String
  description : Option String := none
  price : Int
  unit : String
  imageUrl : Option String := none
  stock : Option Int := none
  sku : Option String := none
  isActive : Option Bool := none
deriving DecidableEq

/-- `orders` table row. -/
structure Order where
  id : Nat
  userId : Nat
  storeId : Nat
  status : String
  totalAmount : Int
  deliveryAddress : String
  createdAt : Int
  estimatedDelivery : Option Int
  reviewed : Bool
deriving DecidableEq

/-- `InsertOrder` payload (id, status, createdAt omitted). A missing
`reviewed` key behaves as `false` downstream, so it carries a default. -/
structure InsertOrder where
  userId : Nat
  storeId : Nat
  totalAmount : Int
  deliveryAddress : String
  estimatedDelivery : Option Int := none
  reviewed : Option Bool := none
deriving DecidableEq

/-- `order_items` table row. -/
structure OrderItem where
  id : Nat
  orderId : Nat
  productId : Nat
  quantity : Int
  price : Int
deriving DecidableEq

/-- `InsertOrderItem` payload. -/
structure InsertOrderItem where
  orderId : Nat
  productId : Nat
  quantity : Int
  price : Int
deriving DecidableEq

/-- JavaScript `x || null` on an optional string: the empty string is
falsy and also becomes `null`. -/
def jsOrNullStr (o : Option String) : Option String :=
  match o with
  | none => none
  | some s => if s = "" then none else some s

/-- JavaScript `x || null` on an optional number: `0` is falsy and
becomes `null`. -/
def jsOrNullNat (o : Option Nat) : Option Nat :=
  match o with
  | none => none
  | some n => if n = 0 then none else some n

/-- JavaScript `x || d` on an optional number with numeric default:
both `undefined` and falsy `0` collapse onto the default. -/
def jsOrInt (o : Option Int) (d : Int) : Int :=
  match o with
  | none => d
  | some n => if n = 0 then d else n

/-!
`Partial<T>` request bodies for the update endpoints: every field is
optional; for nullable columns the patch can also set the column to
null, hence `Option (Option _)`.
-/

/-- `Partial<User>` as merged by `updateUser`. -/
structure UserPatch where
  id : Option Nat := none
  username : Option String := none
  password : Option String := none
  name : Option String := none
  email : Option String := none
  address : Option (Option String) := none
  phone : Option (Option String) := none
  isVendor : Option Bool := none
deriving DecidableEq

/-- JS object spread `{ ...existingUser, ...userData }`. -/
def applyUserPatch (u : User) (p : UserPatch) : User :=
  { id := p.id.getD u.id
    username := p.username.getD u.username
    password := p.password.getD u.password
    name := p.name.getD u.name
    email := p.email.getD u.email
    address := p.address.getD u.address
    phone := p.phone.getD u.phone
    isVendor := p.isVendor.getD u.isVendor }

/-- `Partial<Store>` as merged by `updateStore`. -/
structure StorePatch where
  id : Option Nat := none
  vendorId : Option Nat := none
  name : Option String := none
  description : Option (Option String) := none
  imageUrl : Option (Option String) := none
  address : Option String := none
  location : Option String := none
  rating : Option Int := none
  reviewCount : Option Int := none
  deliveryTime : Option String := none
  deliveryFee : Option Int := none
  minOrder : Option Int := none
  openingHours : Option (Option String) := none
deriving DecidableEq

/-- JS object spread `{ ...existingStore, ...storeData }`. -/
def applyStorePatch (s : Store) (p : StorePatch) : Store :=
  { id := p.id.getD s.id
    vendorId := p.vendorId.getD s.vendorId
    name := p.name.getD s.name
    description := p.description.getD s.description
    imageUrl := p.imageUrl.getD s.imageUrl
    address := p.address.getD s.address
    location := p.location.getD s.location
    rating := p.rating.getD s.rating
    reviewCount := p.reviewCount.getD s.reviewCount
    deliveryTime := p.deliveryTime.getD s.deliveryTime
    deliveryFee := p.deliveryFee.getD s.deliveryFee
    minOrder := p.minOrder.getD s.minOrder
    openingHours := p.openingHours.getD s.openingHours }

/-- `Partial<Product>` as merged by `updateProduct`. -/
structure ProductPatch where
  id : Option Nat := none
  storeId : Option Nat := none
  categoryId : Option (Option Nat) := none
  name : Option String := none
  description : Option (Option String) := none
  price : Option Int := none
  unit : Option String := none
  imageUrl : Option (Option String) := none
  stock : Option Int := none
  sku : Option (Option String) := none
  isActive : Option Bool := none
deriving DecidableEq

/-- JS object spread `{ ...existingProduct, ...productData }`. -/
def applyProductPatch (pr : Product) (p : ProductPatch) : Product :=
  { id := p.id.getD pr.id
    storeId := p.storeId.getD pr.storeId
    categoryId := p.categoryId.getD pr.categoryId
    name := p.name.getD pr.name
    description := p.description.getD pr.description
    price := p.price.getD pr.price
    unit := p.unit.getD pr.unit
    imageUrl := p.imageUrl.getD pr.imageUrl
    stock := p.stock.getD pr.stock
    sku := p.sku.getD pr.sku
    isActive := p.isActive.getD pr.isActive }

/-!
## Storage layer (`server/storage.ts`, class `MemStorage`)

Each method is a pure function over the storage state; methods that
return a value in TS return a pair `(result, new state)` here. The
`createOrder` clock and random draw become explicit parameters. The
`initializeData` sample seeding only creates categories, stores and
products through the same `create*` methods; the claims are stated over
arbitrary states, so the model exposes the constructor state prior to
seeding as `MemStorage.empty`.
-/

/-- The `MemStorage` fields: six maps plus the id counters. -/
structure MemStorage where
  users : JsMap User
  stores : JsMap Store
  categories : JsMap Category
  products : JsMap Product
  orders : JsMap Order
  orderItems : JsMap OrderItem
  userIdCounter : Nat
  storeIdCounter : Nat
  categoryIdCounter : Nat
  productIdCounter : Nat
  orderIdCounter : Nat
  orderItemIdCounter : Nat
deriving DecidableEq

/-- Constructor state: empty maps, all counters at 1 (before the
sample-data seeding). -/
def MemStorage.empty : MemStorage :=
  { users := JsMap.empty, stores := JsMap.empty, categories := JsMap.empty
    products := JsMap.empty, orders := JsMap.empty, orderItems := JsMap.empty
    userIdCounter := 1, storeIdCounter := 1, categoryIdCounter := 1
    productIdCounter := 1, orderIdCounter := 1, orderItemIdCounter := 1 }

/-- `getUser`. -/
def MemStorage.getUser (s : MemStorage) (id : Nat) : Option User :=
  s.users.get? id

/-- `getUserByUsername`: first user (in insertion order) with the name. -/
def MemStorage.getUserByUsername (s : MemStorage) (username : String) : Option User :=
  s.users.values.find? (fun u => u.username = username)

/-- `createUser`. -/
def MemStorage.createUser (s : MemStorage) (d : InsertUser) : User × MemStorage :=
  let id := s.userIdCounter
  let user : User :=
    { id := id
      username := d.username
      password := d.password
      name := d.name
      email := d.email
      isVendor := d.isVendor.getD false
      address := jsOrNullStr d.address
      phone := jsOrNullStr d.phone }
  (user, { s with users := s.users.set id user, userIdCounter := id + 1 })

/-- `updateUser`. -/
def MemStorage.updateUser (s : MemStorage) (id : Nat) (p : UserPatch) :
    Option User × MemStorage :=
  match s.users.get? id with
  | none => (none, s)
  | some u =>
    let u' := applyUserPatch u p
    (some u', { s with users := s.users.set id u' })

/-- `getStores`. -/
def MemStorage.getStores (s : MemStorage) : List Store := s.stores.values

/-- `getStore`. -/
def MemStorage.getStore (s : MemStorage) (id : Nat) : Option Store :=
  s.stores.get? id

/-- `getStoresByVendor`. -/
def MemStorage.getStoresByVendor (s : MemStorage) (vendorId : Nat) : List Store :=
  s.stores.values.filter (fun st => st.vendorId = vendorId)

/-- `createStore`. -/
def MemStorage.createStore (s : MemStorage) (d : InsertStore) : Store × MemStorage :=
  let id := s.storeIdCounter
  let store : Store :=
    { id := id
      vendorId := d.vendorId
      name := d.name
      rating := 0
      reviewCount := 0
      description := jsOrNullStr d.description
      imageUrl := jsOrNullStr d.imageUrl
      address := d.address
      location := d.location
      deliveryTime := d.deliveryTime
      deliveryFee := d.deliveryFee
      openingHours := jsOrNullStr d.openingHours
      minOrder := jsOrInt d.minOrder 0 }
  (store, { s with stores := s.stores.set id store, storeIdCounter := id + 1 })

/-- `updateStore`. -/
def MemStorage.updateStore (s : MemStorage) (id : Nat) (p : StorePatch) :
    Option Store × MemStorage :=
  match s.stores.get? id with
  | none => (none, s)
  | some st =>
    let st' := applyStorePatch st p
    (some st', { s with stores := s.stores.set id st' })

/-- `getCategories`. -/
def MemStorage.getCategories (s : MemStorage) : List Category := s.categories.values

/-- `getCategory`. -/
def MemStorage.getCategory (s : MemStorage) (id : Nat) : Option Category :=
  s.categories.get? id

/-- `createCategory`. -/
def MemStorage.createCategory (s : MemStorage) (d : InsertCategory) :
    Category × MemStorage :=
  let id := s.categoryIdCounter
  let c : Category := { id := id, name := d.name, icon := d.icon, colorClass := d.colorClass }
  (c, { s with categories := s.categories.set id c, categoryIdCounter := id + 1 })

/-- `getProducts`. -/
def MemStorage.getProducts (s : MemStorage) : List Product := s.products.values

/-- `getProductsByStore`. -/
def MemStorage.getProductsByStore (s : MemStorage) (storeId : Nat) : List Product :=
  s.products.values.filter (fun p => p.storeId = storeId)

/-- `getProductsByCategory`. -/
def MemStorage.getProductsByCategory (s : MemStorage) (categoryId : Nat) : List Product :=
  s.products.values.filter (fun p => p.categoryId = some categoryId)

/-- `getProduct`. -/
def MemStorage.getProduct (s : MemStorage) (id : Nat) : Option Product :=
  s.products.get? id

/-- `createProduct`. -/
def MemStorage.createProduct (s : MemStorage) (d : InsertProduct) :
    Product × MemStorage :=
  let id := s.productIdCounter
  let p : Product :=
    { id := id
      storeId := d.storeId
      name := d.name
      price := d.price
      unit := d.unit
      description := jsOrNullStr d.description
      imageUrl := jsOrNullStr d.imageUrl
      categoryId := jsOrNullNat d.categoryId
      stock := jsOrInt d.stock 0
      sku := jsOrNullStr d.sku
      isActive := d.isActive.getD true }
  (p, { s with products := s.products.set id p, productIdCounter := id + 1 })

/-- `updateProduct`. -/
def MemStorage.updateProduct (s : MemStorage) (id : Nat) (p : ProductPatch) :
    Option Product × MemStorage :=
  match s.products.get? id with
  | none => (none, s)
  | some pr =>
    let pr' := applyProductPatch pr p
    (some pr', { s with products := s.products.set id pr' })

/-- `deleteProduct`: `this.products.delete(id)` returns whether the key
was present. -/
def MemStorage.deleteProduct (s : MemStorage) (id : Nat) : Bool × MemStorage :=
  (s.products.has id, { s with products := s.products.delete id })

/-- `getOrders`. -/
def MemStorage.getOrders (s : MemStorage) : List Order := s.orders.values

/-- `getOrdersByUser`. -/
def MemStorage.getOrdersByUser (s : MemStorage) (userId : Nat) : List Order :=
  s.orders.values.filter (fun o => o.userId = userId)

/-- `getOrdersByStore`. -/
def MemStorage.getOrdersByStore (s : MemStorage) (storeId : Nat) : List Order :=
  s.orders.values.filter (fun o => o.storeId = storeId)

/-- `getOrder`. -/
def MemStorage.getOrder (s : MemStorage) (id : Nat) : Option Order :=
  s.orders.get? id

/-- `createOrder`: status forced to `pending`, `createdAt := now`, and
`estimatedDelivery := now + 30min + rand` where `rand` models
`Math.random() * 15 * 60000` (milliseconds in `[0, 900000)`). -/
def MemStorage.createOrder (s : MemStorage) (d : InsertOrder) (now : Int) (rand : Nat) :
    Order × MemStorage :=
  let id := s.orderIdCounter
  let estimatedDelivery : Int := now + 30 * 60000 + rand
  let o : Order :=
    { id := id
      userId := d.userId
      storeId := d.storeId
      totalAmount := d.totalAmount
      deliveryAddress := d.deliveryAddress
      reviewed := d.reviewed.getD false
      status := "pending"
      createdAt := now
      estimatedDelivery := some estimatedDelivery }
  (o, { s with orders := s.orders.set id o, orderIdCounter := id + 1 })

/-- `updateOrderStatus`. -/
def MemStorage.updateOrderStatus (s : MemStorage) (id : Nat) (status : String) :
    Option Order × MemStorage :=
  match s.orders.get? id with
  | none => (none, s)
  | some o =>
    let o' := { o with status := status }
    (some o', { s with orders := s.orders.set id o' })

/-- `getOrderItems`. -/
def MemStorage.getOrderItems (s : MemStorage) (orderId : Nat) : List OrderItem :=
  s.orderItems.values.filter (fun it => it.orderId = orderId)

/-- `createOrderItem`. -/
def MemStorage.createOrderItem (s : MemStorage) (d : InsertOrderItem) :
    OrderItem × MemStorage :=
  let id := s.orderItemIdCounter
  let it : OrderItem :=
    { id := id, orderId := d.orderId, productId := d.productId
      quantity := d.quantity, price := d.price }
  (it, { s with orderItems := s.orderItems.set id it, orderItemIdCounter := id + 1 })

/-- The inner loop of `deleteStore` for one order: delete each item of
`getOrderItems(orderId)` from the (live) order-items map. -/
def deleteItemsOfOrder (m : JsMap OrderItem) (orderId : Nat) : JsMap OrderItem :=
  (m.values.filter (fun it => it.orderId = orderId)).foldl
    (fun acc it => acc.delete it.id) m

/-- `deleteStore`: cascade-delete the store's products, its orders and
their order items, then the store itself. The product and order lists
are snapshots taken before the loops, as in the source; the item lookup
inside the order loop reads the live map. -/
def MemStorage.deleteStore (s : MemStorage) (id : Nat) : Bool × MemStorage :=
  match s.stores.get? id with
  | none => (false, s)
  | some _ =>
    let prods := s.getProductsByStore id
    let products' := prods.foldl (fun m p => m.delete p.id) s.products
    let ords := s.getOrdersByStore id
    let orderItems' := ords.foldl (fun m o => deleteItemsOfOrder m o.id) s.orderItems
    let orders' := ords.foldl (fun m o => m.delete o.id) s.orders
    let stores' := s.stores.delete id
    let deleted := s.stores.has id
    let stillExists := stores'.has id
    (deleted && !stillExists,
      { s with stores := stores', products := products'
               orders := orders', orderItems := orderItems' })

/-!
## REST handlers (`server/routes.ts`, extended version with the
store-delete and order-cancel endpoints)

A handler result is the HTTP status code paired with the storage state
after the request. `pid` is the `parseInt(req.params.id)` result
(`none` = `NaN`, which the handlers answer with 400).
-/

/-- `GET /api/stores/:id`. -/
def getStoreHandler (s : MemStorage) (pid : Option Nat) : Nat × MemStorage :=
  match pid with
  | none => (400, s)
  | some id =>
    match s.getStore id with
    | none => (404, s)
    | some _ => (200, s)

/-- `PUT /api/stores/:id` with `req.body` as a partial store. -/
def putStoreHandler (s : MemStorage) (pid : Option Nat) (body : StorePatch) :
    Nat × MemStorage :=
  match pid with
  | none => (400, s)
  | some id =>
    match s.updateStore id body with
    | (none, s') => (404, s')
    | (some _, s') => (200, s')

/-- `DELETE /api/stores/:id`. -/
def deleteStoreHandler (s : MemStorage) (pid : Option Nat) : Nat × MemStorage :=
  match pid with
  | none => (400, s)
  | some id =>
    match s.deleteStore id with
    | (false, s') => (404, s')
    | (true, s') => (200, s')

/-- `GET /api/products/:id`. -/
def getProductHandler (s : MemStorage) (pid : Option Nat) : Nat × MemStorage :=
  match pid with
  | none => (400, s)
  | some id =>
    match s.getProduct id with
    | none => (404, s)
    | some _ => (200, s)

/-- `PUT /api/products/:id` with `req.body` as a partial product. -/
def putProductHandler (s : MemStorage) (pid : Option Nat) (body : ProductPatch) :
    Nat × MemStorage :=
  match pid with
  | none => (400, s)
  | some id =>
    match s.updateProduct id body with
    | (none, s') => (404, s')
    | (some _, s') => (200, s')

/-- `DELETE /api/products/:id` (204 on success). -/
def deleteProductHandler (s : MemStorage) (pid : Option Nat) : Nat × MemStorage :=
  match pid with
  | none => (400, s)
  | some id =>
    match s.deleteProduct id with
    | (false, s') => (404, s')
    | (true, s') => (204, s')

/-- `GET /api/orders/:id`. -/
def getOrderHandler (s : MemStorage) (pid : Option Nat) : Nat × MemStorage :=
  match pid with
  | none => (400, s)
  | some id =>
    match s.getOrder id with
    | none => (404, s)
    | some _ => (200, s)

/-- A line of `req.body.items` in `POST /api/orders`. -/
structure OrderItemReq where
  productId : Nat
  quantity : Int
  price : Int
deriving DecidableEq

/-- `POST /api/orders`: `none` body models a zod validation failure
(400); otherwise create the order, then one order item per line with
`orderId` set to the fresh order's id. -/
def postOrdersHandler (s : MemStorage) (body : Option InsertOrder)
    (items : List OrderItemReq) (now : Int) (rand : Nat) : Nat × MemStorage :=
  match body with
  | none => (400, s)
  | some d =>
    let (order, s1) := s.createOrder d now rand
    let s2 := items.foldl
      (fun st it =>
        (st.createOrderItem
          { orderId := order.id, productId := it.productId
            quantity := it.quantity, price := it.price }).2) s1
    (201, s2)

/-- `PUT /api/orders/:id/status`: the body's `status` is `none` when
absent or not a string; the empty string is falsy and also rejected. -/
def putOrderStatusHandler (s : MemStorage) (pid : Option Nat)
    (status : Option String) : Nat × MemStorage :=
  match pid with
  | none => (400, s)
  | some id =>
    match status with
    | none => (400, s)
    | some st =>
      if st = "" then (400, s)
      else
        match s.updateOrderStatus id st with
        | (none, s') => (404, s')
        | (some _, s') => (200, s')

/-- `POST /api/orders/:id/cancel`: window check first
(`(now - createdAt) / 60000 > 10`, i.e. `now - createdAt > 600000` ms),
then reject orders already `cancelled` or `delivered`, else set the
status to `cancelled`. -/
def cancelOrderHandler (s : MemStorage) (pid : Option Nat) (now : Int) :
    Nat × MemStorage :=
  match pid with
  | none => (400, s)
  | some id =>
    match s.getOrder id with
    | none => (404, s)
    | some o =>
      if now - o.createdAt > 600000 then (400, s)
      else if o.status = "cancelled" ∨ o.status = "delivered" then (400, s)
      else
        match s.updateOrderStatus id "cancelled" with
        | (none, s') => (500, s')
        | (some _, s') => (200, s')

/-- `canCancelOrder` from `client/src/pages/OrdersPage.tsx`: the elapsed
minutes are at most 10 and the status is exactly `pending`. -/
def canCancelOrder (o : Order) (now : Int) : Bool :=
  (now - o.createdAt ≤ 600000) && (o.status = "pending")

/-!
## Storage operations as a step type

`StorageOp` collects every state-changing storage method (the get
methods are pure reads); `applyOp` runs one, discarding the returned
value. Reachable states are folds of `applyOp` from a start state.
-/

/-- One state-changing storage call. -/
inductive StorageOp where
  | createUser (d : InsertUser)
  | updateUser (id : Nat) (p : UserPatch)
  | createStore (d : InsertStore)
  | updateStore (id : Nat) (p : StorePatch)
  | deleteStore (id : Nat)
  | createCategory (d : InsertCategory)
  | createProduct (d : InsertProduct)
  | updateProduct (id : Nat) (p : ProductPatch)
  | deleteProduct (id : Nat)
  | createOrder (d : InsertOrder) (now : Int) (rand : Nat)
  | updateOrderStatus (id : Nat) (st : String)
  | createOrderItem (d : InsertOrderItem)
deriving DecidableEq

/-- Run one storage operation. -/
def applyOp (s : MemStorage) : StorageOp → MemStorage
  | .createUser d => (s.createUser d).2
  | .updateUser id p => (s.updateUser id p).2
  | .createStore d => (s.createStore d).2
  | .updateStore id p => (s.updateStore id p).2
  | .deleteStore id => (s.deleteStore id).2
  | .createCategory d => (s.createCategory d).2
  | .createProduct d => (s.createProduct d).2
  | .updateProduct id p => (s.updateProduct id p).2
  | .deleteProduct id => (s.deleteProduct id).2
  | .createOrder d now rand => (s.createOrder d now rand).2
  | .updateOrderStatus id st => (s.updateOrderStatus id st).2
  | .createOrderItem d => (s.createOrderItem d).2

/-- Run a list of storage operations from a start state. -/
def applyOps (s : MemStorage) (ops : List StorageOp) : MemStorage :=
  ops.foldl applyOp s

/-- The five documented order statuses. -/
def validStatuses : List String :=
  ["pending", "processing", "out_for_delivery", "delivered", "cancelled"]

/-- Every stored order's status is one of the five documented values. -/
def statusOk (s : MemStorage) : Prop :=
  ∀ o ∈ s.orders.values, o.status ∈ validStatuses

instance (s : MemStorage) : Decidable (statusOk s) := by
  unfold statusOk; infer_instance

/-- Referential integrity: orders point at existing users and stores,
order items at existing orders and products. -/
def refOk (s : MemStorage) : Prop :=
  (∀ o ∈ s.orders.values, s.users.has o.userId = true ∧ s.stores.has o.storeId = true) ∧
  (∀ it ∈ s.orderItems.values,
    s.orders.has it.orderId = true ∧ s.products.has it.productId = true)

instance (s : MemStorage) : Decidable (refOk s) := by
  unfold refOk; infer_instance

/-!
## Cart state machine (`client/src/context/CartContext.tsx`)

The cart lives in component state: an item list and an optional
`storeId`. `addItem` takes the product, the requested quantity, the
`window.confirm` answer (for the different-store dialog) and the
`Date.now()` value used as the fresh cart-item id. Each operation also
takes the `user` flag (logged in or not); the operations are no-ops when
logged out. `CartItem.storeId` is a ghost field recording the
`product.storeId` of the product the item was created from; no
operation reads it — it only lets the single-store invariant be stated.
-/

/-- A cart line (`CartItem` in the source, plus the ghost `storeId`). -/
structure CartItem where
  id : Nat
  productId : Nat
  name : String
  price : Int
  unit : String
  quantity : Int
  imageUrl : Option String
  storeId : Nat
deriving DecidableEq

/-- Cart component state. -/
structure Cart where
  items : List CartItem
  storeId : Option Nat
deriving DecidableEq

/-- The initial cart state (`[]` and `null`). -/
def Cart.emptyCart : Cart := { items := [], storeId := none }

/-- `clearCart`. -/
def Cart.clearCart (_ : Cart) : Cart := { items := [], storeId := none }

/-- The fresh cart line built for a product. -/
def mkCartItem (product : Product) (quantity : Int) (nowId : Nat) : CartItem :=
  { id := nowId
    productId := product.id
    name := product.name
    price := product.price
    unit := product.unit
    quantity := quantity
    imageUrl := product.imageUrl
    storeId := product.storeId }

/-- `updatedItems[existingItemIndex].quantity += quantity`: bump the
quantity of the first line with the product id. -/
def bumpFirst : List CartItem → Nat → Int → List CartItem
  | [], _, _ => []
  | i :: rest, pid, q =>
    if i.productId = pid then { i with quantity := i.quantity + q } :: rest
    else i :: bumpFirst rest pid q

/-- The tail of `addItem` after the different-store guard: set the store
id, then either bump the existing line or append a fresh one. -/
def Cart.addCore (c : Cart) (product : Product) (quantity : Int) (nowId : Nat) : Cart :=
  let c' := { c with storeId := some product.storeId }
  if c'.items.any (fun i => i.productId = product.id) then
    { c' with items := bumpFirst c'.items product.id quantity }
  else
    { c' with items := c'.items ++ [mkCartItem product quantity nowId] }

/-- `addItem`. `confirm` is the answer to the different-store
`window.confirm`; declining returns early, leaving the cart untouched.
Accepting calls `clearCart()`, but that only queues `setItems([])` and
`setStoreId(null)`: the code then reads the stale pre-clear `items`
closure, and its later `setStoreId(product.storeId)` and `setItems`
calls win over the queued clears, so the add proceeds on the un-cleared
cart — the confirmed branch is `addCore` on `c` itself. -/
def Cart.addItem (user : Bool) (c : Cart) (product : Product) (quantity : Int)
    (confirm : Bool) (nowId : Nat) : Cart :=
  if user = false then c
  else if c.storeId ≠ none ∧ c.storeId ≠ some product.storeId ∧ c.items ≠ [] then
    if confirm then c.addCore product quantity nowId
    else c
  else c.addCore product quantity nowId

/-- `removeItem`: drop the line and null the store id if the cart
became empty. -/
def Cart.removeItem (user : Bool) (c : Cart) (itemId : Nat) : Cart :=
  if user = false then c
  else
    let updatedItems := c.items.filter (fun i => i.id ≠ itemId)
    { items := updatedItems
      storeId := if updatedItems = [] then none else c.storeId }

/-- `updateQuantity`: below 1 removes the line, otherwise rewrite the
quantity of every line with the id. -/
def Cart.updateQuantity (user : Bool) (c : Cart) (itemId : Nat) (quantity : Int) : Cart :=
  if user = false then c
  else if quantity < 1 then c.removeItem user itemId
  else
    { c with
      items := c.items.map
        (fun i => if i.id = itemId then { i with quantity := quantity } else i) }

/-- One cart interaction (all with the same logged-in user). -/
inductive CartOp where
  | add (product : Product) (quantity : Int) (confirm : Bool) (nowId : Nat)
  | remove (itemId : Nat)
  | update (itemId : Nat) (quantity : Int)
  | clear
deriving DecidableEq

/-- Run one cart interaction as a logged-in user. -/
def applyCartOp (c : Cart) : CartOp → Cart
  | .add product quantity confirm nowId => c.addItem true product quantity confirm nowId
  | .remove itemId => c.removeItem true itemId
  | .update itemId quantity => c.updateQuantity true itemId quantity
  | .clear => c.clearCart

/-- Run a list of cart interactions. -/
def applyCartOps (c : Cart) (ops : List CartOp) : Cart :=
  ops.foldl applyCartOp c

/-- The single-store invariant: the store id is null exactly when the
cart is empty, and every line came from the store the cart points at. -/
def CartInv (c : Cart) : Prop :=
  (c.storeId = none ↔ c.items = []) ∧
  (∀ i ∈ c.items, some i.storeId = c.storeId)

instance (c : Cart) : Decidable (CartInv c) := by
  unfold CartInv; infer_instance

/-!
## Password utilities (`server/utils/passwordUtils.ts`)

Passwords and stored hashes are `List Char`; scrypt is an explicit
function parameter from (password, salt) to a byte list, with its
output length (the source always asks for 64 bytes) and byte bounds
supplied as hypotheses where needed. `Buffer.from(hex, "hex")` decodes
greedy two-digit groups and stops at the first invalid group, and
`timingSafeEqual` on equal-length buffers is byte-list equality.
-/

/-- The lowercase hex digit of a nibble: `0`-`9` (codes 48-57) then
`a`-`f` (codes 97-102). -/
def hexChar (n : Nat) : Char :=
  if n < 10 then Char.ofNat (48 + n) else Char.ofNat (87 + n)

/-- The numeric value of a hex digit (upper or lower case), if any. -/
def hexVal (c : Char) : Option Nat :=
  if 48 ≤ c.toNat ∧ c.toNat ≤ 57 then some (c.toNat - 48)
  else if 97 ≤ c.toNat ∧ c.toNat ≤ 102 then some (c.toNat - 87)
  else if 65 ≤ c.toNat ∧ c.toNat ≤ 70 then some (c.toNat - 55)
  else none

/-- `buf.toString("hex")` for one byte. -/
def byteToHex (b : Nat) : List Char := [hexChar (b / 16), hexChar (b % 16)]

/-- `buf.toString("hex")`. -/
def hexEncode (bs : List Nat) : List Char := (bs.map byteToHex).flatten

/-- `Buffer.from(chars, "hex")`: greedy pairs, stopping at the first
invalid pair or dangling digit. -/
def hexDecode : List Char → List Nat
  | c1 :: c2 :: rest =>
    match hexVal c1, hexVal c2 with
    | some hi, some lo => (16 * hi + lo) :: hexDecode rest
    | _, _ => []
  | _ => []

/-- JavaScript `String.prototype.split(".")`. -/
def splitOnDot : List Char → List (List Char)
  | [] => [[]]
  | c :: rest =>
    if c = '.' then [] :: splitOnDot rest
    else
      match splitOnDot rest with
      | [] => [[c]]
      | part :: parts => (c :: part) :: parts

/-- `hashPassword`: the salt (in the source, 16 random bytes hex
encoded) is an explicit parameter; the result is
`hex(scrypt(password, salt, 64)) ++ "." ++ salt`. -/
def hashPassword (scrypt : List Char → List Char → List Nat)
    (password salt : List Char) : List Char :=
  hexEncode (scrypt password salt) ++ '.' :: salt

/-- `comparePasswords`: split the stored string on dots, reject unless
there are exactly two nonempty parts, hex-decode the hash part, rerun
scrypt on the supplied password and compare. -/
def comparePasswords (scrypt : List Char → List Char → List Nat)
    (supplied stored : List Char) : Bool :=
  let parts := splitOnDot stored
  if parts.length ≠ 2 then false
  else
    match parts with
    | [hashed, salt] =>
      if hashed = [] ∨ salt = [] then false
      else
        let hashedBuf := hexDecode hashed
        let suppliedBuf := scrypt supplied salt
        if hashedBuf.length ≠ suppliedBuf.length then false
        else decide (hashedBuf = suppliedBuf)
    | _ => false

/-!
## Shared helper lemmas and sample states
-/

theorem JsMap.get?_some_mem_values {α : Type} (m : JsMap α) (k : Nat) (v : α)
    (h : m.get? k = some v) : v ∈ m.values := by
  induction m with
  | nil => simp [JsMap.get?] at h
  | cons e rest ih =>
    by_cases he : e.1 = k
    · simp [JsMap.get?, he] at h
      simp [JsMap.values, h]
    · simp only [JsMap.get?, he, if_false] at h
      simp [JsMap.values]
      exact Or.inr (by simpa [JsMap.values] using ih h)

theorem JsMap.delete_eq_of_get?_none {α : Type} (m : JsMap α) (k : Nat)
    (h : m.get? k = none) : m.delete k = m := by
  induction m with
  | nil => simp [JsMap.delete]
  | cons e rest ih =>
    by_cases he : e.1 = k
    · simp [JsMap.get?, he] at h
    · simp only [JsMap.get?, he, if_false] at h
      simp [JsMap.delete, he, ih h]

/-- A sample order payload used by the concrete witnesses. -/
def sampleInsertOrder : InsertOrder :=
  { userId := 1, storeId := 1, totalAmount := 100, deliveryAddress := "12 Main St" }

/-- The order created from `sampleInsertOrder` at time 0 with draw 0. -/
def sampleOrder : Order := (MemStorage.empty.createOrder sampleInsertOrder 0 0).1

/-- Storage holding only that single pending order (id 1). -/
def sampleState : MemStorage := (MemStorage.empty.createOrder sampleInsertOrder 0 0).2

/-- `sampleState` after `PUT /api/orders/1/status` with body `processing`. -/
def sampleProcessingState : MemStorage :=
  (putOrderStatusHandler sampleState (some 1) (some "processing")).2

/-!
## C1 and C2: the cancel endpoint
-/

/-- C1, counterexample: the claim says the cancel endpoint never cancels
an order whose status is `processing`, but on a one-minute-old
`processing` order the handler answers 200 and stores status
`cancelled`. -/
theorem cancelEndpointCancelsProcessing_counterexample :
    sampleProcessingState.getOrder 1 = some { sampleOrder with status := "processing" } ∧
    (cancelOrderHandler sampleProcessingState (some 1) 60000).1 = 200 ∧
    ((cancelOrderHandler sampleProcessingState (some 1) 60000).2.getOrder 1).map Order.status
      = some "cancelled" := by
  decide

/-- C1, amended: within the 10-minute window the server cancel endpoint
cancels every order whose status is `pending`, `processing` or
`out_for_delivery` — not only `pending`; only the client-side
`canCancelOrder` guard additionally requires status `pending`
(given the window, it returns true exactly on pending orders). -/
theorem cancelEndpoint_amended (s : MemStorage) (id : Nat) (o : Order) (now : Int)
    (h : s.getOrder id = some o)
    (hst : o.status = "pending" ∨ o.status = "processing" ∨ o.status = "out_for_delivery")
    (hw : now - o.createdAt ≤ 600000) :
    (cancelOrderHandler s (some id) now).1 = 200 ∧
    (cancelOrderHandler s (some id) now).2.getOrder id
      = some { o with status := "cancelled" } ∧
    (canCancelOrder o now = true ↔ o.status = "pending") := by
  have hnw : ¬ (now - o.createdAt > 600000) := not_lt.mpr hw
  have hcd : ¬ (o.status = "cancelled" ∨ o.status = "delivered") := by
    rcases hst with h' | h' | h' <;> simp [h']
  have h' : s.orders.get? id = some o := h
  refine ⟨?_, ?_, ?_⟩
  · simp [cancelOrderHandler, MemStorage.getOrder, h', hnw, hcd,
      MemStorage.updateOrderStatus]
  · simp [cancelOrderHandler, MemStorage.getOrder, h', hnw, hcd,
      MemStorage.updateOrderStatus, JsMap.get?_set_self]
  · simp [canCancelOrder, hw]

/-- C1, witness for the amended theorem at the concrete
one-minute-old `processing` order. -/
theorem cancelEndpoint_amended_witness :
    (cancelOrderHandler sampleProcessingState (some 1) 120000).1 = 200 ∧
    (cancelOrderHandler sampleProcessingState (some 1) 120000).2.getOrder 1
      = some { { sampleOrder with status := "processing" } with status := "cancelled" } ∧
    (canCancelOrder { sampleOrder with status := "processing" } 120000 = true ↔
      { sampleOrder with status := "processing" }.status = "pending") :=
  cancelEndpoint_amended sampleProcessingState 1 { sampleOrder with status := "processing" }
    120000 (by decide) (by decide) (by decide)

/-- C2: for an existing order that is neither `cancelled` nor
`delivered`, cancelling at elapsed time at most 10 minutes succeeds and
stores status `cancelled`; at more than 10 minutes the handler answers
400 and leaves the storage untouched. -/
theorem cancelWindowBoundary (s : MemStorage) (id : Nat) (o : Order) (now : Int)
    (h : s.getOrder id = some o)
    (hc : o.status ≠ "cancelled") (hd : o.status ≠ "delivered") :
    (now - o.createdAt ≤ 600000 →
      (cancelOrderHandler s (some id) now).1 = 200 ∧
      (cancelOrderHandler s (some id) now).2.getOrder id
        = some { o with status := "cancelled" }) ∧
    (now - o.createdAt > 600000 →
      cancelOrderHandler s (some id) now = (400, s)) := by
  have h' : s.orders.get? id = some o := h
  have hcd : ¬ (o.status = "cancelled" ∨ o.status = "delivered") := by
    simp [hc, hd]
  constructor
  · intro hle
    have hnw : ¬ (now - o.createdAt > 600000) := not_lt.mpr hle
    constructor
    · simp [cancelOrderHandler, MemStorage.getOrder, h', hnw, hcd,
        MemStorage.updateOrderStatus]
    · simp [cancelOrderHandler, MemStorage.getOrder, h', hnw, hcd,
        MemStorage.updateOrderStatus, JsMap.get?_set_self]
  · intro hgt
    simp [cancelOrderHandler, MemStorage.getOrder, h', hgt]

/-- C2, witness: the concrete pending order is cancellable at
9 minutes 59 seconds and rejected with 400 at 10 minutes 1 second. -/
theorem cancelWindowBoundary_witness :
    ((cancelOrderHandler sampleState (some 1) 599000).1 = 200 ∧
      (cancelOrderHandler sampleState (some 1) 599000).2.getOrder 1
        = some { sampleOrder with status := "cancelled" }) ∧
    (cancelOrderHandler sampleState (some 1) 601000 = (400, sampleState)) :=
  ⟨(cancelWindowBoundary sampleState 1 sampleOrder 599000 (by decide) (by decide)
      (by decide)).1 (by decide),
   (cancelWindowBoundary sampleState 1 sampleOrder 601000 (by decide) (by decide)
      (by decide)).2 (by decide)⟩

/-!
## C5: order-creation postconditions
-/

/-- C5: `createOrder` returns an order with a fresh id (given the
counter invariant that every stored key is below `orderIdCounter`, which
every reachable state satisfies), status `pending`, `createdAt` equal to
the creation time, and an estimated delivery between 30 (inclusive) and
45 (exclusive) minutes after creation, for every value of the random
draw; the order is stored under its id. -/
theorem createOrderPostconditions (s : MemStorage) (d : InsertOrder) (now : Int)
    (rand : Nat)
    (hwf : ∀ k, s.orders.has k = true → k < s.orderIdCounter)
    (hr : rand < 900000) :
    s.orders.has (s.createOrder d now rand).1.id = false ∧
    (s.createOrder d now rand).1.status = "pending" ∧
    (s.createOrder d now rand).1.createdAt = now ∧
    (∃ e, (s.createOrder d now rand).1.estimatedDelivery = some e ∧
      now + 30 * 60000 ≤ e ∧ e < now + 45 * 60000) ∧
    (s.createOrder d now rand).2.getOrder (s.createOrder d now rand).1.id
      = some (s.createOrder d now rand).1 := by
  refine ⟨?_, rfl, rfl, ?_, ?_⟩
  · cases hhas : s.orders.has (s.createOrder d now rand).1.id with
    | false => rfl
    | true =>
      have : s.orderIdCounter < s.orderIdCounter := hwf _ hhas
      exact absurd this (lt_irrefl _)
  · refine ⟨now + 30 * 60000 + rand, rfl, ?_, ?_⟩
    · have : (0 : Int) ≤ (rand : Int) := Int.ofNat_nonneg rand
      omega
    · have : (rand : Int) < 900000 := by exact_mod_cast hr
      omega
  · exact JsMap.get?_set_self s.orders s.orderIdCounter _

/-- C5, witness at the empty storage, time 0 and draw 42. -/
theorem createOrderPostconditions_witness :
    MemStorage.empty.orders.has
      (MemStorage.empty.createOrder sampleInsertOrder 0 42).1.id = false ∧
    (MemStorage.empty.createOrder sampleInsertOrder 0 42).1.status = "pending" ∧
    (MemStorage.empty.createOrder sampleInsertOrder 0 42).1.createdAt = 0 ∧
    (∃ e, (MemStorage.empty.createOrder sampleInsertOrder 0 42).1.estimatedDelivery
        = some e ∧ 0 + 30 * 60000 ≤ e ∧ e < 0 + 45 * 60000) ∧
    (MemStorage.empty.createOrder sampleInsertOrder 0 42).2.getOrder
        (MemStorage.empty.createOrder sampleInsertOrder 0 42).1.id
      = some (MemStorage.empty.createOrder sampleInsertOrder 0 42).1 :=
  createOrderPostconditions MemStorage.empty sampleInsertOrder 0 42
    (by intro k hk; simp [MemStorage.empty, JsMap.empty, JsMap.has] at hk) (by decide)

/-!
## C6: error model of the by-id endpoints
-/

/-- C6: on every by-id store, product and order endpoint, an id that
does not parse answers 400 and a parseable id with no matching entity
answers 404 (for the status endpoint, given a well-formed status body),
in both cases leaving the storage state unchanged. -/
theorem byIdEndpointsErrorModel (s : MemStorage) (id : Nat) (now : Int)
    (bodyS : StorePatch) (bodyP : ProductPatch) (st : String) (hst : st ≠ "")
    (hs : s.getStore id = none) (hp : s.getProduct id = none)
    (ho : s.getOrder id = none) :
    getStoreHandler s none = (400, s) ∧
    putStoreHandler s none bodyS = (400, s) ∧
    deleteStoreHandler s none = (400, s) ∧
    getProductHandler s none = (400, s) ∧
    putProductHandler s none bodyP = (400, s) ∧
    deleteProductHandler s none = (400, s) ∧
    getOrderHandler s none = (400, s) ∧
    putOrderStatusHandler s none (some st) = (400, s) ∧
    cancelOrderHandler s none now = (400, s) ∧
    getStoreHandler s (some id) = (404, s) ∧
    putStoreHandler s (some id) bodyS = (404, s) ∧
    deleteStoreHandler s (some id) = (404, s) ∧
    getProductHandler s (some id) = (404, s) ∧
    putProductHandler s (some id) bodyP = (404, s) ∧
    deleteProductHandler s (some id) = (404, s) ∧
    getOrderHandler s (some id) = (404, s) ∧
    putOrderStatusHandler s (some id) (some st) = (404, s) ∧
    cancelOrderHandler s (some id) now = (404, s) := by
  have hs' : s.stores.get? id = none := hs
  have hp' : s.products.get? id = none := hp
  have ho' : s.orders.get? id = none := ho
  have hpdel : s.products.delete id = s.products := JsMap.delete_eq_of_get?_none _ _ hp'
  have hphas : s.products.has id = false := by
    rw [JsMap.has_iff_get?_isSome, hp']; rfl
  refine ⟨rfl, rfl, rfl, rfl, rfl, rfl, rfl, rfl, rfl, ?_, ?_, ?_, ?_, ?_, ?_, ?_, ?_, ?_⟩
  · simp [getStoreHandler, MemStorage.getStore, hs']
  · simp [putStoreHandler, MemStorage.updateStore, hs']
  · simp [deleteStoreHandler, MemStorage.deleteStore, hs']
  · simp [getProductHandler, MemStorage.getProduct, hp']
  · simp [putProductHandler, MemStorage.updateProduct, hp']
  · simp [deleteProductHandler, MemStorage.deleteProduct, hphas, hpdel]
  · simp [getOrderHandler, MemStorage.getOrder, ho']
  · simp [putOrderStatusHandler, MemStorage.updateOrderStatus, ho', hst]
  · simp [cancelOrderHandler, MemStorage.getOrder, ho']

/-- C6, witness at the empty storage, id 42, a well-formed status body
and empty patch bodies. -/
theorem byIdEndpointsErrorModel_witness :
    getStoreHandler MemStorage.empty none = (400, MemStorage.empty) ∧
    putStoreHandler MemStorage.empty none {} = (400, MemStorage.empty) ∧
    deleteStoreHandler MemStorage.empty none = (400, MemStorage.empty) ∧
    getProductHandler MemStorage.empty none = (400, MemStorage.empty) ∧
    putProductHandler MemStorage.empty none {} = (400, MemStorage.empty) ∧
    deleteProductHandler MemStorage.empty none = (400, MemStorage.empty) ∧
    getOrderHandler MemStorage.empty none = (400, MemStorage.empty) ∧
    putOrderStatusHandler MemStorage.empty none (some "processing")
      = (400, MemStorage.empty) ∧
    cancelOrderHandler MemStorage.empty none 0 = (400, MemStorage.empty) ∧
    getStoreHandler MemStorage.empty (some 42) = (404, MemStorage.empty) ∧
    putStoreHandler MemStorage.empty (some 42) {} = (404, MemStorage.empty) ∧
    deleteStoreHandler MemStorage.empty (some 42) = (404, MemStorage.empty) ∧
    getProductHandler MemStorage.empty (some 42) = (404, MemStorage.empty) ∧
    putProductHandler MemStorage.empty (some 42) {} = (404, MemStorage.empty) ∧
    deleteProductHandler MemStorage.empty (some 42) = (404, MemStorage.empty) ∧
    getOrderHandler MemStorage.empty (some 42) = (404, MemStorage.empty) ∧
    putOrderStatusHandler MemStorage.empty (some 42) (some "processing")
      = (404, MemStorage.empty) ∧
    cancelOrderHandler MemStorage.empty (some 42) 0 = (404, MemStorage.empty) :=
  byIdEndpointsErrorModel MemStorage.empty 42 0 {} {} "processing"
    (by decide) (by decide) (by decide) (by decide)

/-!
## C8: CRUD round-trips
-/

/-- C8: a created product/store is readable back under the returned id;
updating an existing product stores and returns the spread-merge of the
old record with the patch (patched fields changed, all others kept);
after deleting a product its id reads back as `none`. -/
theorem crudRoundTrips (s s2 : MemStorage) (dp : InsertProduct) (ds : InsertStore)
    (id : Nat) (patch : ProductPatch) (pr : Product)
    (hex : s2.getProduct id = some pr) :
    (s.createProduct dp).2.getProduct (s.createProduct dp).1.id
      = some (s.createProduct dp).1 ∧
    (s.createStore ds).2.getStore (s.createStore ds).1.id
      = some (s.createStore ds).1 ∧
    (s2.updateProduct id patch).1 = some (applyProductPatch pr patch) ∧
    (s2.updateProduct id patch).2.getProduct id = some (applyProductPatch pr patch) ∧
    (s2.deleteProduct id).2.getProduct id = none := by
  have hex' : s2.products.get? id = some pr := hex
  refine ⟨?_, ?_, ?_, ?_, ?_⟩
  · exact JsMap.get?_set_self s.products s.productIdCounter _
  · exact JsMap.get?_set_self s.stores s.storeIdCounter _
  · simp [MemStorage.updateProduct, hex']
  · simp [MemStorage.updateProduct, hex', MemStorage.getProduct, JsMap.get?_set_self]
  · exact JsMap.get?_delete_self s2.products id

/-- A sample product payload used by the concrete witnesses. -/
def sampleInsertProduct : InsertProduct :=
  { storeId := 1, name := "Milk", price := 27, unit := "pack" }

/-- A sample store payload used by the concrete witnesses. -/
def sampleInsertStore : InsertStore :=
  { vendorId := 1, name := "More SuperMarket", address := "123 Main Street"
    location := "12.9716,77.5946", deliveryTime := "20-35 min", deliveryFee := 30 }

/-- Storage holding only the sample product (id 1). -/
def sampleProductState : MemStorage :=
  (MemStorage.empty.createProduct sampleInsertProduct).2

/-- The stored sample product. -/
def sampleProduct : Product := (MemStorage.empty.createProduct sampleInsertProduct).1

/-- A sample partial update changing only the price. -/
def samplePricePatch : ProductPatch := { price := some 30 }

/-- C8, witness: concrete create/read, update/read and delete/read
round-trips at the sample product and store. -/
theorem crudRoundTrips_witness :
    (MemStorage.empty.createProduct sampleInsertProduct).2.getProduct
        (MemStorage.empty.createProduct sampleInsertProduct).1.id
      = some (MemStorage.empty.createProduct sampleInsertProduct).1 ∧
    (MemStorage.empty.createStore sampleInsertStore).2.getStore
        (MemStorage.empty.createStore sampleInsertStore).1.id
      = some (MemStorage.empty.createStore sampleInsertStore).1 ∧
    (sampleProductState.updateProduct 1 samplePricePatch).1
      = some (applyProductPatch sampleProduct samplePricePatch) ∧
    (sampleProductState.updateProduct 1 samplePricePatch).2.getProduct 1
      = some (applyProductPatch sampleProduct samplePricePatch) ∧
    (sampleProductState.deleteProduct 1).2.getProduct 1 = none :=
  crudRoundTrips MemStorage.empty sampleProductState sampleInsertProduct
    sampleInsertStore 1 samplePricePatch sampleProduct (by decide)

/-!
## C3: the order-status value set
-/

theorem JsMap.mem_values_foldl_delete {α β : Type} (l : List β) (f : β → Nat)
    (m : JsMap α) (w : α)
    (h : w ∈ (l.foldl (fun acc b => acc.delete (f b)) m).values) : w ∈ m.values := by
  induction l generalizing m with
  | nil => simpa using h
  | cons b rest ih =>
    simp only [List.foldl_cons] at h
    exact JsMap.mem_values_delete m (f b) w (ih (m.delete (f b)) h)

/-- `updateOrderStatus` keeps `statusOk` when the written status is one
of the five documented values. -/
theorem statusOk_updateOrderStatus (s : MemStorage) (id : Nat) (st : String)
    (h : statusOk s) (hst : st ∈ validStatuses) :
    statusOk (s.updateOrderStatus id st).2 := by
  unfold MemStorage.updateOrderStatus
  cases heq : s.orders.get? id with
  | none => exact h
  | some o =>
    intro o' ho'
    rcases JsMap.mem_values_set _ _ _ _ ho' with rfl | ho'
    · exact hst
    · exact h o' ho'

/-- `createOrder` writes status `pending` and keeps `statusOk`. -/
theorem statusOk_createOrder (s : MemStorage) (d : InsertOrder) (now : Int) (rand : Nat)
    (h : statusOk s) : statusOk (s.createOrder d now rand).2 := by
  intro o' ho'
  rcases JsMap.mem_values_set _ _ _ _ ho' with rfl | ho'
  · simp [validStatuses]
  · exact h o' ho'

/-- `deleteStore` only removes orders and keeps `statusOk`. -/
theorem statusOk_deleteStore (s : MemStorage) (id : Nat)
    (h : statusOk s) : statusOk (s.deleteStore id).2 := by
  unfold MemStorage.deleteStore
  cases heq : s.stores.get? id with
  | none => exact h
  | some st =>
    intro o' ho'
    exact h o' (JsMap.mem_values_foldl_delete _ _ _ _ ho')

/-- The storage operation respects the status value set (only
`updateOrderStatus` can write an arbitrary string). -/
def opRespectsStatuses : StorageOp → Prop
  | .updateOrderStatus _ st => st ∈ validStatuses
  | _ => True

/-- C3, counterexample: the claim says every reachable state has only
the five documented statuses, but `PUT /api/orders/1/status` with body
`shipped` is accepted (200) and stores the out-of-set status. -/
theorem statusValueSet_counterexample :
    statusOk sampleState ∧
    (putOrderStatusHandler sampleState (some 1) (some "shipped")).1 = 200 ∧
    ¬ statusOk (putOrderStatusHandler sampleState (some 1) (some "shipped")).2 ∧
    ((putOrderStatusHandler sampleState (some 1) (some "shipped")).2.getOrder 1).map
      Order.status = some "shipped" := by
  decide

/-- C3, amended: the five-value invariant holds on the constructor
state and is preserved by every storage operation and by the cancel
endpoint, provided each status update writes one of the five documented
values — the status-update endpoint itself does not enforce this. -/
theorem statusValueSet_amended :
    statusOk MemStorage.empty ∧
    (∀ (s : MemStorage) (op : StorageOp),
      statusOk s → opRespectsStatuses op → statusOk (applyOp s op)) ∧
    (∀ (s : MemStorage) (pid : Option Nat) (now : Int),
      statusOk s → statusOk (cancelOrderHandler s pid now).2) ∧
    (∀ (s : MemStorage) (ops : List StorageOp),
      statusOk s → (∀ op ∈ ops, opRespectsStatuses op) → statusOk (applyOps s ops)) := by
  have hpres : ∀ (s : MemStorage) (op : StorageOp),
      statusOk s → opRespectsStatuses op → statusOk (applyOp s op) := by
    intro s op h hresp
    cases op with
    | createUser d => exact h
    | updateUser id p =>
      simp only [applyOp, MemStorage.updateUser]
      cases s.users.get? id with
      | none => exact h
      | some u => exact h
    | createStore d => exact h
    | updateStore id p =>
      simp only [applyOp, MemStorage.updateStore]
      cases s.stores.get? id with
      | none => exact h
      | some st => exact h
    | deleteStore id => exact statusOk_deleteStore s id h
    | createCategory d => exact h
    | createProduct d => exact h
    | updateProduct id p =>
      simp only [applyOp, MemStorage.updateProduct]
      cases s.products.get? id with
      | none => exact h
      | some pr => exact h
    | deleteProduct id => exact h
    | createOrder d now rand => exact statusOk_createOrder s d now rand h
    | updateOrderStatus id st => exact statusOk_updateOrderStatus s id st h hresp
    | createOrderItem d => exact h
  refine ⟨by decide, hpres, ?_, ?_⟩
  · intro s pid now h
    cases pid with
    | none => exact h
    | some id =>
      simp only [cancelOrderHandler]
      cases heq : s.getOrder id with
      | none => exact h
      | some o =>
        by_cases hw : now - o.createdAt > 600000
        · simp only [hw, if_true]
          exact h
        · simp only [hw, if_false]
          by_cases hcd : o.status = "cancelled" ∨ o.status = "delivered"
          · simp only [hcd, if_true]
            exact h
          · simp only [hcd, if_false]
            have hpost := statusOk_updateOrderStatus s id "cancelled" h
              (by simp [validStatuses])
            cases hupd : s.updateOrderStatus id "cancelled" with
            | mk r s' =>
              rw [hupd] at hpost
              cases r with
              | none => exact hpost
              | some o' => exact hpost
  · intro s ops h hall
    induction ops generalizing s with
    | nil => exact h
    | cons op rest ih =>
      exact ih (applyOp s op) (hpres s op h (hall op (by simp)))
        (fun op' hop' => hall op' (by simp [hop']))

/-- C3, witness for the amended theorem: the preservation clause at the
concrete pending-order state and a valid `processing` update. -/
theorem statusValueSet_amended_witness :
    statusOk (applyOp sampleState (StorageOp.updateOrderStatus 1 "processing")) :=
  statusValueSet_amended.2.1 sampleState (StorageOp.updateOrderStatus 1 "processing")
    (by decide) (by simp [opRespectsStatuses, validStatuses])

/-!
## C4: referential integrity
-/

/-- The storage operations that cannot break referential integrity:
order/order-item creation inserts unchecked foreign keys, and the two
delete operations can orphan references. -/
def refSafeOp : StorageOp → Bool
  | .createOrder _ _ _ => false
  | .createOrderItem _ => false
  | .deleteProduct _ => false
  | .deleteStore _ => false
  | _ => true

/-- C4, counterexample: `POST /api/orders` on the empty storage accepts
an order (201) whose `userId`/`storeId` reference no user or store, and
an item referencing no product, so referential integrity is not an
invariant of every reachable state. -/
theorem referentialIntegrity_counterexample :
    refOk MemStorage.empty ∧
    (postOrdersHandler MemStorage.empty (some sampleInsertOrder)
      [{ productId := 1, quantity := 2, price := 27 }] 0 0).1 = 201 ∧
    ¬ refOk (postOrdersHandler MemStorage.empty (some sampleInsertOrder)
      [{ productId := 1, quantity := 2, price := 27 }] 0 0).2 := by
  decide

/-- C4, amended: referential integrity is not preserved by every
storage operation — `createOrder` and `createOrderItem` insert
unchecked references and `deleteProduct`/`deleteStore` can orphan order
items — but it is preserved by all the remaining operations
(user/store/category/product creation and update, and order status
updates). -/
theorem referentialIntegrity_amended :
    refOk MemStorage.empty ∧
    (∀ (s : MemStorage) (op : StorageOp),
      refSafeOp op = true → refOk s → refOk (applyOp s op)) := by
  refine ⟨by decide, ?_⟩
  intro s op hsafe h
  obtain ⟨ho, hi⟩ := h
  cases op with
  | createUser d =>
    simp only [applyOp, MemStorage.createUser]
    exact ⟨fun o hm => ⟨JsMap.has_set _ _ _ _ (ho o hm).1, (ho o hm).2⟩, hi⟩
  | updateUser id p =>
    simp only [applyOp, MemStorage.updateUser]
    cases s.users.get? id with
    | none => exact ⟨ho, hi⟩
    | some u =>
      exact ⟨fun o hm => ⟨JsMap.has_set _ _ _ _ (ho o hm).1, (ho o hm).2⟩, hi⟩
  | createStore d =>
    simp only [applyOp, MemStorage.createStore]
    exact ⟨fun o hm => ⟨(ho o hm).1, JsMap.has_set _ _ _ _ (ho o hm).2⟩, hi⟩
  | updateStore id p =>
    simp only [applyOp, MemStorage.updateStore]
    cases s.stores.get? id with
    | none => exact ⟨ho, hi⟩
    | some st =>
      exact ⟨fun o hm => ⟨(ho o hm).1, JsMap.has_set _ _ _ _ (ho o hm).2⟩, hi⟩
  | deleteStore id => simp [refSafeOp] at hsafe
  | createCategory d =>
    simp only [applyOp, MemStorage.createCategory]
    exact ⟨ho, hi⟩
  | createProduct d =>
    simp only [applyOp, MemStorage.createProduct]
    exact ⟨ho, fun it hm => ⟨(hi it hm).1, JsMap.has_set _ _ _ _ (hi it hm).2⟩⟩
  | updateProduct id p =>
    simp only [applyOp, MemStorage.updateProduct]
    cases s.products.get? id with
    | none => exact ⟨ho, hi⟩
    | some pr =>
      exact ⟨ho, fun it hm => ⟨(hi it hm).1, JsMap.has_set _ _ _ _ (hi it hm).2⟩⟩
  | deleteProduct id => simp [refSafeOp] at hsafe
  | createOrder d now rand => simp [refSafeOp] at hsafe
  | updateOrderStatus id st =>
    simp only [applyOp, MemStorage.updateOrderStatus]
    cases heq : s.orders.get? id with
    | none => exact ⟨ho, hi⟩
    | some o =>
      refine ⟨?_, ?_⟩
      · intro o' hm
        rcases JsMap.mem_values_set _ _ _ _ hm with rfl | hm'
        · exact ho o (JsMap.get?_some_mem_values _ _ _ heq)
        · exact ho o' hm'
      · intro it hm
        exact ⟨JsMap.has_set _ _ _ _ (hi it hm).1, (hi it hm).2⟩
  | createOrderItem d => simp [refSafeOp] at hsafe

/-- A sample user payload used by the concrete witnesses. -/
def sampleInsertUser : InsertUser :=
  { username := "asha", password := "pw", name := "Asha", email := "a@x.io" }

/-- C4, witness for the amended theorem: preservation of referential
integrity by a user creation on the empty state. -/
theorem referentialIntegrity_amended_witness :
    refOk (applyOp MemStorage.empty (StorageOp.createUser sampleInsertUser)) :=
  referentialIntegrity_amended.2 MemStorage.empty
    (StorageOp.createUser sampleInsertUser) (by decide) (by decide)

/-!
## C9: the cart single-store invariant
-/

/-- A product from store 2, used by the cart trace. -/
def sampleCartProduct : Product :=
  { id := 7, storeId := 2, categoryId := none, name := "Ashirwad Atta"
    description := none, price := 75, unit := "pack", imageUrl := none
    stock := 0, sku := none, isActive := true }

/-- C9, code bug: the confirm dialog promises to clear the cart before
adding the other store's item, but `clearCart()` only queues state
updates and `addItem` then reads the stale pre-clear `items`, whose
later `setItems` wins. Already on a two-add trace from the empty cart
(a store-1 product, then a store-2 product with the confirmation
accepted) the resulting cart keeps the old store-1 line next to the new
store-2 line while `storeId` points at store 2, violating the
single-store invariant. -/
theorem cartDifferentStoreAdd_keepsStaleItems :
    (applyCartOps Cart.emptyCart
        [CartOp.add sampleProduct 1 true 100,
          CartOp.add sampleCartProduct 1 true 200]).items
      = [mkCartItem sampleProduct 1 100, mkCartItem sampleCartProduct 1 200] ∧
    (applyCartOps Cart.emptyCart
        [CartOp.add sampleProduct 1 true 100,
          CartOp.add sampleCartProduct 1 true 200]).storeId = some 2 ∧
    ¬ CartInv (applyCartOps Cart.emptyCart
        [CartOp.add sampleProduct 1 true 100,
          CartOp.add sampleCartProduct 1 true 200]) := by
  decide

/-!
## C7: deletion and the store-delete cascade

The cascade proofs need the well-formedness the program maintains:
every map entry's value carries its key as its `id` field and keys are
duplicate-free.
-/

theorem JsMap.mem_of_get?_eq_some {α : Type} (m : JsMap α) (k : Nat) (v : α)
    (h : m.get? k = some v) : (k, v) ∈ m := by
  induction m with
  | nil => simp [JsMap.get?] at h
  | cons e rest ih =>
    by_cases he : e.1 = k
    · rw [JsMap.get?, if_pos he] at h
      cases e with
      | mk k0 v0 =>
        cases he
        cases h
        exact List.mem_cons_self _ _
    · rw [JsMap.get?, if_neg he] at h
      exact List.mem_cons_of_mem _ (ih h)

theorem JsMap.get?_of_mem {α : Type} (m : JsMap α) (k : Nat) (v : α)
    (hnd : m.keys.Nodup) (h : (k, v) ∈ m) : m.get? k = some v := by
  induction m with
  | nil => simp at h
  | cons e rest ih =>
    have hnd' : e.1 ∉ rest.map Prod.fst ∧ (rest.map Prod.fst).Nodup := by
      simpa [JsMap.keys, List.nodup_cons] using hnd
    rcases List.mem_cons.mp h with rfl | h'
    · simp [JsMap.get?]
    · by_cases he : e.1 = k
      · exfalso
        apply hnd'.1
        rw [he]
        exact List.mem_map.mpr ⟨(k, v), h', rfl⟩
      · rw [JsMap.get?, if_neg he]
        exact ih hnd'.2 h'

theorem JsMap.get?_of_values_mem {α : Type} (m : JsMap α) (f : α → Nat) (k : Nat) (v : α)
    (h1 : ∀ e ∈ m, f e.2 = e.1) (h2 : m.keys.Nodup)
    (hv : v ∈ m.values) (hk : f v = k) : m.get? k = some v := by
  have hex : ∃ e ∈ m, e.2 = v := by simpa [JsMap.values] using hv
  obtain ⟨e, he, hev⟩ := hex
  have hkey : e.1 = k := by rw [← h1 e he, hev, hk]
  have : (k, v) ∈ m := by
    cases e with
    | mk k0 v0 =>
      simp only at hev hkey
      rw [← hev, ← hkey]
      exact he
  exact JsMap.get?_of_mem m k v h2 this

theorem JsMap.delete_sublist {α : Type} (m : JsMap α) (k : Nat) :
    List.Sublist (m.delete k) m := by
  induction m with
  | nil => simp [JsMap.delete]
  | cons e rest ih =>
    by_cases he : e.1 = k
    · rw [JsMap.delete, if_pos he]
      exact ih.cons e
    · rw [JsMap.delete, if_neg he]
      exact ih.cons₂ e

theorem JsMap.wf_delete {α : Type} (f : α → Nat) (m : JsMap α) (k : Nat)
    (h1 : ∀ e ∈ m, f e.2 = e.1) (h2 : m.keys.Nodup) :
    (∀ e ∈ m.delete k, f e.2 = e.1) ∧ (m.delete k).keys.Nodup := by
  constructor
  · intro e he
    exact h1 e ((JsMap.delete_sublist m k).subset he)
  · exact List.Nodup.sublist ((JsMap.delete_sublist m k).map Prod.fst) h2

theorem JsMap.get?_foldl_delete {α β : Type} (l : List β) (g : β → Nat)
    (m : JsMap α) (k : Nat) :
    (l.foldl (fun acc b => acc.delete (g b)) m).get? k
      = if l.any (fun b => g b = k) then none else m.get? k := by
  induction l generalizing m with
  | nil => simp
  | cons b rest ih =>
    simp only [List.foldl_cons]
    rw [ih]
    by_cases hb : g b = k
    · subst hb
      simp [JsMap.get?_delete_self]
    · simp [hb, JsMap.get?_delete_ne _ _ _ hb]

theorem JsMap.wf_foldl_delete {α β : Type} (l : List β) (g : β → Nat) (f : α → Nat)
    (m : JsMap α) (h1 : ∀ e ∈ m, f e.2 = e.1) (h2 : m.keys.Nodup) :
    (∀ e ∈ l.foldl (fun acc b => acc.delete (g b)) m, f e.2 = e.1) ∧
    (l.foldl (fun acc b => acc.delete (g b)) m).keys.Nodup := by
  induction l generalizing m with
  | nil => exact ⟨h1, h2⟩
  | cons b rest ih =>
    simp only [List.foldl_cons]
    have hd := JsMap.wf_delete f m (g b) h1 h2
    exact ih (m.delete (g b)) hd.1 hd.2

theorem JsMap.get?_filter_foldl_delete {α : Type} (f : α → Nat) (pred : α → Bool)
    (m : JsMap α) (k : Nat)
    (h1 : ∀ e ∈ m, f e.2 = e.1) (h2 : m.keys.Nodup) :
    ((m.values.filter pred).foldl (fun acc v => acc.delete (f v)) m).get? k
      = match m.get? k with
        | some v => if pred v = true then none else some v
        | none => none := by
  rw [JsMap.get?_foldl_delete]
  have hchar : (m.values.filter pred).any (fun v => f v = k) = true →
      ∃ v, m.get? k = some v ∧ pred v = true := by
    intro hany
    obtain ⟨v, hvmem, hfk⟩ := List.any_eq_true.mp hany
    have hfk' : f v = k := by simpa using hfk
    have hvv := List.mem_filter.mp hvmem
    exact ⟨v, JsMap.get?_of_values_mem m f k v h1 h2 hvv.1 hfk', hvv.2⟩
  cases hm : m.get? k with
  | none =>
    by_cases hany : (m.values.filter pred).any (fun v => f v = k) = true
    · obtain ⟨v, hv, _⟩ := hchar hany
      rw [hm] at hv
      cases hv
    · simp [hany, hm]
  | some v =>
    by_cases hp : pred v = true
    · have hany : (m.values.filter pred).any (fun v => f v = k) = true := by
        apply List.any_eq_true.mpr
        refine ⟨v, List.mem_filter.mpr ⟨JsMap.get?_some_mem_values m k v hm, hp⟩, ?_⟩
        have : (k, v) ∈ m := JsMap.mem_of_get?_eq_some m k v hm
        simpa using h1 (k, v) this
      simp [hany, hp]
    · have hany : ¬ (m.values.filter pred).any (fun v => f v = k) = true := by
        intro hany
        obtain ⟨v', hv', hp'⟩ := hchar hany
        rw [hm] at hv'
        cases hv'
        exact hp hp'
      simp [hany, hm, hp]

theorem deleteItemsOfOrder_get? (m : JsMap OrderItem) (oid k : Nat)
    (h1 : ∀ e ∈ m, e.2.id = e.1) (h2 : m.keys.Nodup) :
    (deleteItemsOfOrder m oid).get? k
      = match m.get? k with
        | some it => if it.orderId = oid then none else some it
        | none => none := by
  unfold deleteItemsOfOrder
  rw [JsMap.get?_filter_foldl_delete (fun it => it.id)
    (fun it => decide (it.orderId = oid)) m k h1 h2]
  cases hm : m.get? k with
  | none => rfl
  | some it =>
    by_cases ho : it.orderId = oid
    · simp [ho]
    · simp [ho]

theorem wf_deleteItemsOfOrder (m : JsMap OrderItem) (oid : Nat)
    (h1 : ∀ e ∈ m, e.2.id = e.1) (h2 : m.keys.Nodup) :
    (∀ e ∈ deleteItemsOfOrder m oid, e.2.id = e.1) ∧
    (deleteItemsOfOrder m oid).keys.Nodup := by
  unfold deleteItemsOfOrder
  exact JsMap.wf_foldl_delete _ (fun it : OrderItem => it.id)
    (fun it : OrderItem => it.id) m h1 h2

theorem get?_foldl_deleteItemsOfOrder (ords : List Order) (m : JsMap OrderItem)
    (k : Nat) (h1 : ∀ e ∈ m, e.2.id = e.1) (h2 : m.keys.Nodup) :
    (ords.foldl (fun acc o => deleteItemsOfOrder acc o.id) m).get? k
      = match m.get? k with
        | some it => if ords.any (fun o => o.id = it.orderId) = true then none
                     else some it
        | none => none := by
  induction ords generalizing m with
  | nil =>
    simp only [List.foldl_nil]
    cases m.get? k <;> rfl
  | cons o rest ih =>
    simp only [List.foldl_cons]
    have hwf := wf_deleteItemsOfOrder m o.id h1 h2
    rw [ih (deleteItemsOfOrder m o.id) hwf.1 hwf.2]
    rw [deleteItemsOfOrder_get? m o.id k h1 h2]
    cases hm : m.get? k with
    | none => rfl
    | some it =>
      by_cases hoid : it.orderId = o.id
      · simp [hoid]
      · have hne : ¬ (o.id = it.orderId) := fun hcontra => hoid hcontra.symm
        simp [hoid, hne, List.any_cons]

/-- For an `id`-keyed duplicate-free orders map, membership of `oid`
among the ids of the store's orders is lookup followed by the store
test. -/
theorem ordersByStore_any_eq (s : MemStorage) (id oid : Nat)
    (h1 : ∀ e ∈ s.orders, e.2.id = e.1) (h2 : s.orders.keys.Nodup) :
    (s.getOrdersByStore id).any (fun o => o.id = oid)
      = match s.orders.get? oid with
        | some o => decide (o.storeId = id)
        | none => false := by
  unfold MemStorage.getOrdersByStore
  cases hm : s.orders.get? oid with
  | none =>
    apply List.any_eq_false.mpr
    intro o ho
    have hf := List.mem_filter.mp ho
    intro hid
    have hid' : o.id = oid := by simpa using hid
    have := JsMap.get?_of_values_mem s.orders (fun o => o.id) oid o h1 h2 hf.1 hid'
    rw [hm] at this
    cases this
  | some o =>
    have homem : (oid, o) ∈ s.orders := JsMap.mem_of_get?_eq_some _ _ _ hm
    have hoid : o.id = oid := h1 (oid, o) homem
    have hov : o ∈ s.orders.values := JsMap.get?_some_mem_values _ _ _ hm
    by_cases hsid : o.storeId = id
    · simp only [hsid, decide_True]
      apply List.any_eq_true.mpr
      exact ⟨o, List.mem_filter.mpr ⟨hov, by simpa using hsid⟩, by simpa using hoid⟩
    · simp only [hsid, decide_False]
      apply List.any_eq_false.mpr
      intro o' ho'
      have hf := List.mem_filter.mp ho'
      intro hid
      have hid' : o'.id = oid := by simpa using hid
      have := JsMap.get?_of_values_mem s.orders (fun o => o.id) oid o' h1 h2 hf.1 hid'
      rw [hm] at this
      cases this
      exact hsid (by simpa using hf.2)

/-- The two storage operations that remove entries. -/
def isDeleteOp : StorageOp → Bool
  | .deleteProduct _ => true
  | .deleteStore _ => true
  | _ => false

/-- Every storage operation other than the two deletes keeps every
existing key in every map. -/
theorem nonDeleteOp_preserves_keys (s : MemStorage) (op : StorageOp)
    (hnd : isDeleteOp op = false) (k : Nat) :
    (s.users.has k = true → (applyOp s op).users.has k = true) ∧
    (s.stores.has k = true → (applyOp s op).stores.has k = true) ∧
    (s.categories.has k = true → (applyOp s op).categories.has k = true) ∧
    (s.products.has k = true → (applyOp s op).products.has k = true) ∧
    (s.orders.has k = true → (applyOp s op).orders.has k = true) ∧
    (s.orderItems.has k = true → (applyOp s op).orderItems.has k = true) := by
  cases op with
  | createUser d =>
    exact ⟨fun h => JsMap.has_set _ _ _ _ h, fun h => h, fun h => h, fun h => h,
      fun h => h, fun h => h⟩
  | updateUser id p =>
    simp only [applyOp, MemStorage.updateUser]
    cases s.users.get? id with
    | none =>
      exact ⟨fun h => h, fun h => h, fun h => h, fun h => h, fun h => h, fun h => h⟩
    | some u =>
      exact ⟨fun h => JsMap.has_set _ _ _ _ h, fun h => h, fun h => h, fun h => h,
        fun h => h, fun h => h⟩
  | createStore d =>
    exact ⟨fun h => h, fun h => JsMap.has_set _ _ _ _ h, fun h => h, fun h => h,
      fun h => h, fun h => h⟩
  | updateStore id p =>
    simp only [applyOp, MemStorage.updateStore]
    cases s.stores.get? id with
    | none =>
      exact ⟨fun h => h, fun h => h, fun h => h, fun h => h, fun h => h, fun h => h⟩
    | some st =>
      exact ⟨fun h => h, fun h => JsMap.has_set _ _ _ _ h, fun h => h, fun h => h,
        fun h => h, fun h => h⟩
  | deleteStore id => simp [isDeleteOp] at hnd
  | createCategory d =>
    exact ⟨fun h => h, fun h => h, fun h => JsMap.has_set _ _ _ _ h, fun h => h,
      fun h => h, fun h => h⟩
  | createProduct d =>
    exact ⟨fun h => h, fun h => h, fun h => h, fun h => JsMap.has_set _ _ _ _ h,
      fun h => h, fun h => h⟩
  | updateProduct id p =>
    simp only [applyOp, MemStorage.updateProduct]
    cases s.products.get? id with
    | none =>
      exact ⟨fun h => h, fun h => h, fun h => h, fun h => h, fun h => h, fun h => h⟩
    | some pr =>
      exact ⟨fun h => h, fun h => h, fun h => h, fun h => JsMap.has_set _ _ _ _ h,
        fun h => h, fun h => h⟩
  | deleteProduct id => simp [isDeleteOp] at hnd
  | createOrder d now rand =>
    exact ⟨fun h => h, fun h => h, fun h => h, fun h => h,
      fun h => JsMap.has_set _ _ _ _ h, fun h => h⟩
  | updateOrderStatus id st =>
    simp only [applyOp, MemStorage.updateOrderStatus]
    cases s.orders.get? id with
    | none =>
      exact ⟨fun h => h, fun h => h, fun h => h, fun h => h, fun h => h, fun h => h⟩
    | some o =>
      exact ⟨fun h => h, fun h => h, fun h => h, fun h => h,
        fun h => JsMap.has_set _ _ _ _ h, fun h => h⟩
  | createOrderItem d =>
    exact ⟨fun h => h, fun h => h, fun h => h, fun h => h, fun h => h,
      fun h => JsMap.has_set _ _ _ _ h⟩

/-- C7: when `deleteStore id` succeeds it removes the store, every
product and order of that store and every order item of those orders,
leaves users, categories and every other store's entities untouched —
and no storage operation other than the two deletes removes any stored
entity. The hypotheses are the key/id well-formedness the program
maintains (entry values carry their key as `id`, keys duplicate-free). -/
theorem deleteStoreCascade (s : MemStorage) (id : Nat)
    (hwp1 : ∀ e ∈ s.products, e.2.id = e.1) (hwp2 : s.products.keys.Nodup)
    (hwo1 : ∀ e ∈ s.orders, e.2.id = e.1) (hwo2 : s.orders.keys.Nodup)
    (hwi1 : ∀ e ∈ s.orderItems, e.2.id = e.1) (hwi2 : s.orderItems.keys.Nodup)
    (hres : (s.deleteStore id).1 = true) :
    (s.deleteStore id).2.stores.has id = false ∧
    (∀ k, k ≠ id → (s.deleteStore id).2.stores.get? k = s.stores.get? k) ∧
    (s.deleteStore id).2.users = s.users ∧
    (s.deleteStore id).2.categories = s.categories ∧
    (∀ k, (s.deleteStore id).2.products.get? k
      = match s.products.get? k with
        | some p => if p.storeId = id then none else some p
        | none => none) ∧
    (∀ k, (s.deleteStore id).2.orders.get? k
      = match s.orders.get? k with
        | some o => if o.storeId = id then none else some o
        | none => none) ∧
    (∀ k, (s.deleteStore id).2.orderItems.get? k
      = match s.orderItems.get? k with
        | some it =>
          (match s.orders.get? it.orderId with
            | some o => if o.storeId = id then none else some it
            | none => some it)
        | none => none) ∧
    (∀ (t : MemStorage) (op : StorageOp) (k : Nat), isDeleteOp op = false →
      (t.users.has k = true → (applyOp t op).users.has k = true) ∧
      (t.stores.has k = true → (applyOp t op).stores.has k = true) ∧
      (t.categories.has k = true → (applyOp t op).categories.has k = true) ∧
      (t.products.has k = true → (applyOp t op).products.has k = true) ∧
      (t.orders.has k = true → (applyOp t op).orders.has k = true) ∧
      (t.orderItems.has k = true → (applyOp t op).orderItems.has k = true)) := by
  cases hst : s.stores.get? id with
  | none =>
    exfalso
    unfold MemStorage.deleteStore at hres
    rw [hst] at hres
    simp at hres
  | some st0 =>
    have hs2 : (s.deleteStore id).2
        = { s with
            stores := s.stores.delete id
            products := (s.getProductsByStore id).foldl
              (fun m p => m.delete p.id) s.products
            orders := (s.getOrdersByStore id).foldl
              (fun m o => m.delete o.id) s.orders
            orderItems := (s.getOrdersByStore id).foldl
              (fun m o => deleteItemsOfOrder m o.id) s.orderItems } := by
      unfold MemStorage.deleteStore
      rw [hst]
    refine ⟨?_, ?_, ?_, ?_, ?_, ?_, ?_, ?_⟩
    · rw [hs2]
      show (s.stores.delete id).has id = false
      rw [JsMap.has_iff_get?_isSome, JsMap.get?_delete_self]
      rfl
    · intro k hk
      rw [hs2]
      exact JsMap.get?_delete_ne s.stores id k (fun h => hk h.symm)
    · rw [hs2]
    · rw [hs2]
    · intro k
      rw [hs2]
      show ((s.getProductsByStore id).foldl (fun m p => m.delete p.id)
        s.products).get? k = _
      unfold MemStorage.getProductsByStore
      rw [JsMap.get?_filter_foldl_delete (fun p : Product => p.id)
        (fun p => decide (p.storeId = id)) s.products k hwp1 hwp2]
      cases hm : s.products.get? k with
      | none => rfl
      | some p =>
        by_cases hsid : p.storeId = id
        · simp [hsid]
        · simp [hsid]
    · intro k
      rw [hs2]
      show ((s.getOrdersByStore id).foldl (fun m o => m.delete o.id)
        s.orders).get? k = _
      unfold MemStorage.getOrdersByStore
      rw [JsMap.get?_filter_foldl_delete (fun o : Order => o.id)
        (fun o => decide (o.storeId = id)) s.orders k hwo1 hwo2]
      cases hm : s.orders.get? k with
      | none => rfl
      | some o =>
        by_cases hsid : o.storeId = id
        · simp [hsid]
        · simp [hsid]
    · intro k
      rw [hs2]
      show ((s.getOrdersByStore id).foldl (fun m o => deleteItemsOfOrder m o.id)
        s.orderItems).get? k = _
      rw [get?_foldl_deleteItemsOfOrder (s.getOrdersByStore id) s.orderItems k
        hwi1 hwi2]
      cases hit : s.orderItems.get? k with
      | none => rfl
      | some it =>
        show (if ((s.getOrdersByStore id).any fun o => decide (o.id = it.orderId))
                = true then none else some it)
            = match s.orders.get? it.orderId with
              | some o => if o.storeId = id then none else some it
              | none => some it
        rw [ordersByStore_any_eq s id it.orderId hwo1 hwo2]
        cases hoo : s.orders.get? it.orderId with
        | none => simp
        | some o =>
          by_cases hsid : o.storeId = id
          · simp [hsid]
          · simp [hsid]
    · intro t op k hnd
      exact nonDeleteOp_preserves_keys t op hnd k

/-- A second sample store payload. -/
def sampleInsertStore2 : InsertStore :=
  { vendorId := 1, name := "Super Bazaar", address := "456 Market Road"
    location := "12.9716,77.5946", deliveryTime := "15-30 min", deliveryFee := 25 }

/-- A sample product payload for store 2. -/
def sampleInsertProduct2 : InsertProduct :=
  { storeId := 2, name := "Sugar", price := 45, unit := "kg" }

/-- A sample order payload for store 2. -/
def sampleInsertOrder2 : InsertOrder :=
  { userId := 1, storeId := 2, totalAmount := 45, deliveryAddress := "12 Main St" }

/-- Two stores with one product, one order and one order item each. -/
def cascadeState : MemStorage :=
  applyOps MemStorage.empty
    [ StorageOp.createStore sampleInsertStore,
      StorageOp.createStore sampleInsertStore2,
      StorageOp.createProduct sampleInsertProduct,
      StorageOp.createProduct sampleInsertProduct2,
      StorageOp.createOrder sampleInsertOrder 0 0,
      StorageOp.createOrder sampleInsertOrder2 0 0,
      StorageOp.createOrderItem { orderId := 1, productId := 1, quantity := 1, price := 27 },
      StorageOp.createOrderItem { orderId := 2, productId := 2, quantity := 1, price := 45 } ]

/-- C7, witness: deleting store 1 of the concrete two-store state. -/
theorem deleteStoreCascade_witness :
    (cascadeState.deleteStore 1).2.stores.has 1 = false ∧
    (∀ k, k ≠ 1 →
      (cascadeState.deleteStore 1).2.stores.get? k = cascadeState.stores.get? k) ∧
    (cascadeState.deleteStore 1).2.users = cascadeState.users ∧
    (cascadeState.deleteStore 1).2.categories = cascadeState.categories ∧
    (∀ k, (cascadeState.deleteStore 1).2.products.get? k
      = match cascadeState.products.get? k with
        | some p => if p.storeId = 1 then none else some p
        | none => none) ∧
    (∀ k, (cascadeState.deleteStore 1).2.orders.get? k
      = match cascadeState.orders.get? k with
        | some o => if o.storeId = 1 then none else some o
        | none => none) ∧
    (∀ k, (cascadeState.deleteStore 1).2.orderItems.get? k
      = match cascadeState.orderItems.get? k with
        | some it =>
          (match cascadeState.orders.get? it.orderId with
            | some o => if o.storeId = 1 then none else some it
            | none => some it)
        | none => none) ∧
    (∀ (t : MemStorage) (op : StorageOp) (k : Nat), isDeleteOp op = false →
      (t.users.has k = true → (applyOp t op).users.has k = true) ∧
      (t.stores.has k = true → (applyOp t op).stores.has k = true) ∧
      (t.categories.has k = true → (applyOp t op).categories.has k = true) ∧
      (t.products.has k = true → (applyOp t op).products.has k = true) ∧
      (t.orders.has k = true → (applyOp t op).orders.has k = true) ∧
      (t.orderItems.has k = true → (applyOp t op).orderItems.has k = true)) :=
  deleteStoreCascade cascadeState 1 (by decide) (by decide) (by decide) (by decide)
    (by decide) (by decide) (by decide)

/-!
## C10: password hashing round-trip
-/

theorem hexEncode_cons (b : Nat) (rest : List Nat) :
    hexEncode (b :: rest) = byteToHex b ++ hexEncode rest := by
  simp [hexEncode]

theorem hexChar_ne_dot (n : Nat) (h : n < 16) : hexChar n ≠ '.' := by
  have hball : ∀ m, m < 16 → hexChar m ≠ '.' := by decide
  exact hball n h

theorem hexVal_hexChar (n : Nat) (h : n < 16) : hexVal (hexChar n) = some n := by
  have hball : ∀ m, m < 16 → hexVal (hexChar m) = some m := by decide
  exact hball n h

theorem mem_hexEncode_ne_dot (bs : List Nat) (hb : ∀ b ∈ bs, b < 256) (c : Char)
    (h : c ∈ hexEncode bs) : c ≠ '.' := by
  induction bs with
  | nil => simp [hexEncode] at h
  | cons b rest ih =>
    have hblt : b < 256 := hb b (List.mem_cons_self _ _)
    rw [hexEncode_cons] at h
    rcases List.mem_append.mp h with h' | h'
    · simp only [byteToHex, List.mem_cons, List.mem_singleton] at h'
      rcases h' with rfl | h'
      · exact hexChar_ne_dot _ (by omega)
      · rcases h' with rfl | h'
        · exact hexChar_ne_dot _ (Nat.mod_lt _ (by norm_num))
        · simp at h'
    · exact ih (fun x hx => hb x (List.mem_cons_of_mem _ hx)) h'

theorem splitOnDot_no_dot (l : List Char) (h : '.' ∉ l) : splitOnDot l = [l] := by
  induction l with
  | nil => rfl
  | cons c rest ih =>
    have hc : ¬ (c = '.') := fun hcc => h (by rw [hcc]; exact List.mem_cons_self _ _)
    have hrest : '.' ∉ rest := fun hr => h (List.mem_cons_of_mem _ hr)
    rw [splitOnDot, if_neg hc, ih hrest]

theorem splitOnDot_append (a b : List Char) (h : '.' ∉ a) :
    splitOnDot (a ++ '.' :: b) = a :: splitOnDot b := by
  induction a with
  | nil =>
    show splitOnDot ('.' :: b) = [] :: splitOnDot b
    rw [splitOnDot, if_pos rfl]
  | cons c rest ih =>
    have hc : ¬ (c = '.') := fun hcc => h (by rw [hcc]; exact List.mem_cons_self _ _)
    have hrest : '.' ∉ rest := fun hr => h (List.mem_cons_of_mem _ hr)
    show splitOnDot (c :: (rest ++ '.' :: b)) = (c :: rest) :: splitOnDot b
    rw [splitOnDot, if_neg hc, ih hrest]

theorem hexDecode_hexEncode (bs : List Nat) (h : ∀ b ∈ bs, b < 256) :
    hexDecode (hexEncode bs) = bs := by
  induction bs with
  | nil => rfl
  | cons b rest ih =>
    have hb : b < 256 := h b (List.mem_cons_self _ _)
    have hdiv : b / 16 < 16 := by omega
    have hmod : b % 16 < 16 := Nat.mod_lt _ (by norm_num)
    rw [hexEncode_cons]
    show hexDecode (hexChar (b / 16) :: hexChar (b % 16) :: hexEncode rest)
        = b :: rest
    rw [hexDecode, hexVal_hexChar _ hdiv, hexVal_hexChar _ hmod]
    show (16 * (b / 16) + b % 16) :: hexDecode (hexEncode rest) = b :: rest
    rw [Nat.div_add_mod b 16]
    rw [ih (fun x hx => h x (List.mem_cons_of_mem _ hx))]

/-- C10: `comparePasswords` accepts the password that was hashed (for
any scrypt output of the requested 64 bytes and any dot-free nonempty
salt), rejects any supplied password whose scrypt digest differs, and
returns `false` (rather than raising) on a stored string that does not
split into exactly two parts. The scrypt function is an explicit
parameter; rejection of a wrong password assumes the two digests differ
(scrypt collision-freedom at this salt). -/
theorem passwordHashRoundTrip (scrypt : List Char → List Char → List Nat)
    (p supplied salt stored : List Char)
    (hlen : (scrypt p salt).length = 64)
    (hlen' : (scrypt supplied salt).length = 64)
    (hbyte : ∀ b ∈ scrypt p salt, b < 256)
    (hsalt1 : salt ≠ []) (hsalt2 : '.' ∉ salt)
    (hcoll : scrypt supplied salt ≠ scrypt p salt)
    (hmal : (splitOnDot stored).length ≠ 2) :
    comparePasswords scrypt p (hashPassword scrypt p salt) = true ∧
    comparePasswords scrypt supplied (hashPassword scrypt p salt) = false ∧
    comparePasswords scrypt supplied stored = false := by
  have hdot : '.' ∉ hexEncode (scrypt p salt) :=
    fun hmem => mem_hexEncode_ne_dot _ hbyte _ hmem rfl
  have hsplit : splitOnDot (hashPassword scrypt p salt)
      = [hexEncode (scrypt p salt), salt] := by
    unfold hashPassword
    rw [splitOnDot_append _ _ hdot, splitOnDot_no_dot salt hsalt2]
  have hhne : hexEncode (scrypt p salt) ≠ [] := by
    cases hsc : scrypt p salt with
    | nil => rw [hsc] at hlen; simp at hlen
    | cons b rest =>
      rw [hexEncode_cons]
      simp [byteToHex]
  refine ⟨?_, ?_, ?_⟩
  · simp only [comparePasswords, hsplit]
    rw [hexDecode_hexEncode _ hbyte]
    simp [hhne, hsalt1]
  · simp only [comparePasswords, hsplit]
    rw [hexDecode_hexEncode _ hbyte]
    simp [hhne, hsalt1, hlen, hlen']
    intro hcontra
    exact absurd hcontra.symm hcoll
  · simp only [comparePasswords]
    rw [if_pos hmal]

/-- A toy 64-byte digest function for the witness: the last byte
depends on the password. -/
def scryptToy : List Char → List Char → List Nat :=
  fun pw _ => List.replicate 63 0 ++ [if pw = ['a'] then 1 else 2]

/-- C10, witness at the toy digest, passwords `a`/`b`, salt `ff` and
the malformed stored string `x`. -/
theorem passwordHashRoundTrip_witness :
    comparePasswords scryptToy ['a'] (hashPassword scryptToy ['a'] ['f', 'f'])
      = true ∧
    comparePasswords scryptToy ['b'] (hashPassword scryptToy ['a'] ['f', 'f'])
      = false ∧
    comparePasswords scryptToy ['b'] ['x'] = false :=
  passwordHashRoundTrip scryptToy ['a'] ['b'] ['f', 'f'] ['x']
    (by decide) (by decide) (by decide) (by decide) (by decide) (by decide)
    (by decide)
